import Mathlib

/-!
Verification of the gauth/hydrate token lifecycle (Go, package hydrate plus
the gauth variant) against its natural-language specification.

The embedding follows src/hydrate.go and src/gauth.go.  Machine integers
(int64 Unix timestamps, time.Duration in whole seconds) are modelled as Int.
The HMAC family of signing methods is modelled as an ideal MAC: a signature
is the triple (algorithm, key, payload), so verification succeeds exactly
when the same algorithm, key and serialized payload are presented.  JSON
round-tripping of a claim map (SignedString followed by jwt.Parse) turns Go
int64 claim values into float64 values; this normalization is modelled by
jsonNorm.  float64 values are modelled at the integral points, which covers
every value the code compares (Unix timestamps).  Go map[string]... values
are modelled as association lists whose insert replaces the first binding
of the key or appends a fresh one; Go maps have unique keys, and all stated
properties are about lookups, which do not depend on iteration order.
-/

namespace Hydrate

/-- Signing methods of the HMAC family (jwt.SigningMethodHS256 and friends).
Signing with a byte-slice key never fails for these methods, so the model
of SignedString is total. -/
inductive Alg where
  | HS256
  | HS384
  | HS512
deriving DecidableEq, Repr

/-- A secret key: the byte slice wrapped by mattress. -/
abbrev Secret := List Nat

/-- A dynamic Go value as it occurs in a claim map.  vInt is a Go int64,
vNum is a JSON-decoded float64 (held at an integral point, which is the
only case the code ever produces or compares), vStr a string, vBool a bool. -/
inductive GoVal where
  | vInt (n : Int)
  | vNum (n : Int)
  | vStr (s : String)
  | vBool (b : Bool)
deriving DecidableEq, Repr

/-- JSON round-trip normalization of a single claim value: Go integers are
decoded back as float64; other values are unchanged. -/
def jsonNorm : GoVal → GoVal
  | .vInt n => .vNum n
  | v => v

/-- A claim map (jwt.MapClaims / map[string]interface), as an association
list with unique keys. -/
abbrev ClaimMap := List (String × GoVal)

/-- Lookup of a key in a claim map. -/
def lookupClaim : ClaimMap → String → Option GoVal
  | [], _ => none
  | p :: ps, k => if p.1 = k then some p.2 else lookupClaim ps k

/-- Key-membership test, the comma-ok form of a Go map read. -/
def hasKey (m : ClaimMap) (k : String) : Bool :=
  (lookupClaim m k).isSome

/-- Go map assignment m[k] = v: replace the binding of k if present,
otherwise add a fresh one. -/
def mapInsert : ClaimMap → String → GoVal → ClaimMap
  | [], k, v => [(k, v)]
  | p :: ps, k, v => if p.1 = k then (k, v) :: ps else p :: mapInsert ps k v

/-- JSON round trip of a whole claim map: every value is normalized. -/
def normClaims (m : ClaimMap) : ClaimMap :=
  m.map (fun p => (p.1, jsonNorm p.2))

/-- jwt.StandardClaims: the fixed record of registered claims.  All time
fields are int64 Unix seconds; string fields default to the empty string. -/
structure StandardClaims where
  ExpiresAt : Int := 0
  Issuer : String := ""
  Audience : String := ""
  IssuedAt : Int := 0
  NotBefore : Int := 0
  Subject : String := ""
  Id : String := ""
deriving DecidableEq, Repr

/-- One step of copyStandardClaims for an int64-valued field: the value is
written under its reserved key only when it is non-zero. -/
def stdInsertInt (m : ClaimMap) (k : String) (v : Int) : ClaimMap :=
  if v ≠ 0 then mapInsert m k (GoVal.vInt v) else m

/-- One step of copyStandardClaims for a string-valued field: the value is
written under its reserved key only when it is non-empty. -/
def stdInsertStr (m : ClaimMap) (k : String) (v : String) : ClaimMap :=
  if v ≠ "" then mapInsert m k (GoVal.vStr v) else m

/-- copyStandardClaims of hydrate.go: each standard field with a
non-default value is written under its reserved key.  Go iterates the
claimMapping map in an unspecified order; the keys are pairwise distinct,
so the resulting map does not depend on the order and the model fixes one. -/
def copyStandardClaims (m : ClaimMap) (sc : StandardClaims) : ClaimMap :=
  stdInsertStr
    (stdInsertStr
      (stdInsertInt
        (stdInsertInt
          (stdInsertStr
            (stdInsertStr
              (stdInsertInt m "exp" sc.ExpiresAt)
              "iss" sc.Issuer)
            "aud" sc.Audience)
          "iat" sc.IssuedAt)
        "nbf" sc.NotBefore)
      "sub" sc.Subject)
    "jti" sc.Id

/-- copyCustomClaims of hydrate.go: every custom claim is copied into the
target map.  Go iterates the source map in an unspecified order; with
unique keys the result does not depend on it. -/
def copyCustomClaims (m : ClaimMap) (customClaims : ClaimMap) : ClaimMap :=
  customClaims.foldl (fun acc p => mapInsert acc p.1 p.2) m

/-- copyClaims of hydrate.go: custom claims first, then standard claims on
top (standard claims overwrite custom claims of the same name). -/
def copyClaims (m : ClaimMap) (standardClaims : StandardClaims)
    (customClaims : ClaimMap) : ClaimMap :=
  copyStandardClaims (copyCustomClaims m customClaims) standardClaims

/-- A signed token.  alg and payload are what the header and payload
segments carry; sig is the ideal MAC over (algorithm, key, payload). -/
structure SignedToken where
  alg : Alg
  payload : ClaimMap
  sig : Alg × Secret × ClaimMap
deriving DecidableEq, Repr

/-- jwt.NewWithClaims followed by SignedString for an HMAC method with a
byte-slice key (total: these methods never fail on such keys). -/
def signToken (alg : Alg) (key : Secret) (claims : ClaimMap) : SignedToken :=
  ⟨alg, claims, (alg, key, claims)⟩

/-- The result of a successful jwt.Parse: the header algorithm, the
JSON-decoded claim map, and the Valid flag (true whenever Parse returns
without error). -/
structure ParsedToken where
  alg : Alg
  claims : ClaimMap
  valid : Bool
deriving DecidableEq, Repr

/-- MapClaims.VerifyExpiresAt with required=false (jwt v3.2.2): only a
float64 exp is inspected; a zero value is treated as absent; otherwise the
token is unexpired while now is at most exp. -/
def mapVerifyExpiresAt (m : ClaimMap) (now : Int) : Bool :=
  match lookupClaim m "exp" with
  | some (GoVal.vNum e) => if e = 0 then true else decide (now ≤ e)
  | _ => true

/-- MapClaims.VerifyIssuedAt with required=false (jwt v3.2.2). -/
def mapVerifyIssuedAt (m : ClaimMap) (now : Int) : Bool :=
  match lookupClaim m "iat" with
  | some (GoVal.vNum v) => if v = 0 then true else decide (v ≤ now)
  | _ => true

/-- MapClaims.VerifyNotBefore with required=false (jwt v3.2.2). -/
def mapVerifyNotBefore (m : ClaimMap) (now : Int) : Bool :=
  match lookupClaim m "nbf" with
  | some (GoVal.vNum v) => if v = 0 then true else decide (v ≤ now)
  | _ => true

/-- MapClaims.Valid of jwt v3.2.2: the three time-based checks, each
optional. -/
def mapClaimsValid (m : ClaimMap) (now : Int) : Bool :=
  mapVerifyExpiresAt m now && mapVerifyIssuedAt m now && mapVerifyNotBefore m now

/-- jwt.Parse of v3.2.2 on a structurally well-formed token: run the
keyfunc, JSON-decode the claims, validate the time-based claims, verify
the signature with the method declared in the token header.  Any failure
is collapsed to none. -/
def jwtParse (tok : SignedToken) (keyf : SignedToken → Except Unit Secret)
    (now : Int) : Option ParsedToken :=
  match keyf tok with
  | .error _ => none
  | .ok key =>
    let claims := normClaims tok.payload
    if mapClaimsValid claims now && decide (tok.sig = (tok.alg, key, tok.payload)) then
      some ⟨tok.alg, claims, true⟩
    else
      none

/-- The error values of part hydrate (errors.go). -/
inductive GauthErr where
  | ErrInvalidSecretKey
  | ErrTokenInvalid
  | ErrTokenExpired
  | ErrClaimsInvalid
  | ErrSigningMethodNil
  | ErrStandardClaimMissing
  | ErrCustomClaimsMissing
  | ErrTokenNotGenerated
  | ErrSigningToken
  | ErrStoringToken
  | ErrInvalidTokenConfig
  | ErrTokenConfigNil
deriving DecidableEq, Repr

/-- TokenConfig of hydrate.go.  secretKey is an Option because the Go field
is a nil-able pointer before the SecretKey option runs; NewToken rejects
any configuration in which it is still nil. -/
structure TokenConfig where
  secretKey : Option Secret
  signingMethod : Alg
  standardClaims : StandardClaims
  customClaims : ClaimMap
  token : Option SignedToken
  expiration : Int
deriving DecidableEq, Repr

/-- The m.Secret Expose call.  Every configuration reaching a signing or
parsing call was produced by NewToken, which guarantees a present secret;
the default is never exercised on those paths (Go would nil-panic). -/
def expose (t : TokenConfig) : Secret :=
  t.secretKey.getD []

/-- mattress NewSecret: wrapping fails on an empty key. -/
def newSecret (key : Secret) : Except Unit Secret :=
  if key = [] then .error () else .ok key

/-- A functional option of NewToken. -/
abbrev TokenOption := TokenConfig → Except GauthErr TokenConfig

/-- SecretKey option of hydrate.go. -/
def SecretKey (key : Secret) : TokenOption := fun t =>
  match newSecret key with
  | .error _ => .error .ErrInvalidSecretKey
  | .ok s => .ok { t with secretKey := some s }

/-- WithSigningMethod option of hydrate.go; a nil method is rejected. -/
def WithSigningMethod (method : Option Alg) : TokenOption := fun t =>
  match method with
  | none => .error .ErrSigningMethodNil
  | some m => .ok { t with signingMethod := m }

/-- WithStandardClaims option of hydrate.go: requires a set expiration and
derives the duration expiration = ExpiresAt - now (whole seconds). -/
def WithStandardClaims (now : Int) (claims : StandardClaims) : TokenOption := fun t =>
  if claims.ExpiresAt = 0 then .error .ErrStandardClaimMissing
  else .ok { t with standardClaims := claims, expiration := claims.ExpiresAt - now }

/-- WithCustomClaims option of hydrate.go: requires a non-empty map. -/
def WithCustomClaims (claims : ClaimMap) : TokenOption := fun t =>
  if claims = [] then .error .ErrCustomClaimsMissing
  else .ok { t with customClaims := claims }

/-- The option loop of NewToken: any option failure is reported as
ErrInvalidTokenConfig. -/
def applyOptions : List TokenOption → TokenConfig → Except GauthErr TokenConfig
  | [], t => .ok t
  | o :: os, t =>
    match o t with
    | .error _ => .error .ErrInvalidTokenConfig
    | .ok t2 => applyOptions os t2

/-- NewToken of hydrate.go: start from the HS256 default, apply the
options, then require a secret key. -/
def NewToken (options : List TokenOption) : Except GauthErr TokenConfig :=
  match applyOptions options
      { secretKey := none, signingMethod := .HS256, standardClaims := {},
        customClaims := [], token := none, expiration := 0 } with
  | .error e => .error e
  | .ok t => if t.secretKey.isNone then .error .ErrInvalidSecretKey else .ok t

/-- ParseToken of hydrate.go: jwt.Parse with a keyfunc that returns the
secret unconditionally (in particular it never inspects the token method),
collapsing every failure to ErrTokenInvalid.  The Go code dereferences the
stored token without a nil check and every caller guards it, so the none
branch is unreachable on the paths the code exercises. -/
def ParseToken (t : TokenConfig) (now : Int) : Except GauthErr ParsedToken :=
  match t.token with
  | none => .error .ErrTokenInvalid
  | some tok =>
    match jwtParse tok (fun _ => .ok (expose t)) now with
    | none => .error .ErrTokenInvalid
    | some p => .ok p

/-- updateExpiration of hydrate.go: only an already-present exp claim is
rewritten, to time.Now + the derived duration (an int64). -/
def updateExpiration (t : TokenConfig) (claims : ClaimMap) (now : Int) : ClaimMap :=
  if hasKey claims "exp" then mapInsert claims "exp" (GoVal.vInt (now + t.expiration))
  else claims

/-- updateIssuedAt of hydrate.go: only an already-present iat claim is
rewritten, to time.Now (an int64). -/
def updateIssuedAt (claims : ClaimMap) (now : Int) : ClaimMap :=
  if hasKey claims "iat" then mapInsert claims "iat" (GoVal.vInt now)
  else claims

/-- regenerateToken of hydrate.go: re-parse the stored token, rotate exp
and iat, re-sign, replace the stored token.  The MapClaims type assertion
always succeeds because jwt.Parse produces MapClaims. -/
def regenerateToken (t : TokenConfig) (now : Int) :
    Except GauthErr (SignedToken × TokenConfig) :=
  match t.token with
  | none => .error .ErrTokenNotGenerated
  | some _ =>
    match ParseToken t now with
    | .error e => .error e
    | .ok p =>
      let claims := updateIssuedAt (updateExpiration t p.claims now) now
      let signed := signToken t.signingMethod (expose t) claims
      .ok (signed, { t with token := some signed })

/-- GenerateToken of hydrate.go: once issued, delegate to regenerateToken;
otherwise compose the claims, sign, and store the token.  Signing with an
HMAC method and a byte-slice key never fails, so the ErrSigningToken branch
is unreachable in the model. -/
def GenerateToken (t : TokenConfig) (now : Int) :
    Except GauthErr (SignedToken × TokenConfig) :=
  match t.token with
  | some _ => regenerateToken t now
  | none =>
    let combinedClaims := copyClaims [] t.standardClaims t.customClaims
    let signed := signToken t.signingMethod (expose t) combinedClaims
    .ok (signed, { t with token := some signed })

/-- The observable outcome of GenerateTokenPair: the two returned byte
slices and the error, together with the final states of the two
configurations that the Go code mutates through pointers. -/
structure PairResult where
  accessToken : Option SignedToken
  refreshToken : Option SignedToken
  err : Option GauthErr
  accessCfg : Option TokenConfig
  refreshCfg : Option TokenConfig
deriving DecidableEq, Repr

/-- GenerateTokenPair of hydrate.go: nil-check both configurations, then
generate the access token, then the refresh token, failing fast. -/
def GenerateTokenPair (accessConfig refreshConfig : Option TokenConfig)
    (now : Int) : PairResult :=
  match accessConfig, refreshConfig with
  | none, _ => ⟨none, none, some .ErrTokenConfigNil, accessConfig, refreshConfig⟩
  | some _, none => ⟨none, none, some .ErrTokenConfigNil, accessConfig, refreshConfig⟩
  | some a, some b =>
    match GenerateToken a now with
    | .error e => ⟨none, none, some e, some a, some b⟩
    | .ok (ta, a2) =>
      match GenerateToken b now with
      | .error e => ⟨none, none, some e, some a2, some b⟩
      | .ok (tb, b2) => ⟨some ta, some tb, none, some a2, some b2⟩

/-- ExtractClaims of hydrate.go.  The MapClaims type assertion always
succeeds because jwt.Parse produces MapClaims. -/
def ExtractClaims (t : TokenConfig) (now : Int) : Except GauthErr ClaimMap :=
  match t.token with
  | none => .error .ErrTokenNotGenerated
  | some _ =>
    match ParseToken t now with
    | .error e => .error e
    | .ok p => .ok p.claims

/-- IsValid of hydrate.go.  The result none models the Go runtime panic of
the unchecked type assertion on the exp claim: when an exp claim is present
but is not a float64, the expression int64 of the float64 assertion aborts
the program instead of returning a boolean. -/
def IsValid (t : TokenConfig) (now : Int) : Option Bool :=
  match t.token with
  | none => some false
  | some _ =>
    match ParseToken t now with
    | .error _ => some false
    | .ok p =>
      match lookupClaim p.claims "exp" with
      | some (GoVal.vNum e) => if e < now then some false else some true
      | some _ => none
      | none => some true

/-- RefreshToken of hydrate.go: requires prior issuance and a non-nil,
currently valid refresh configuration, then regenerates through
GenerateToken.  The outer Option propagates a panic inside the IsValid
call on the refresh configuration. -/
def RefreshToken (t : TokenConfig) (refreshConfig : Option TokenConfig)
    (now : Int) : Option (Except GauthErr (SignedToken × TokenConfig)) :=
  match t.token, refreshConfig with
  | none, _ => some (.error .ErrTokenNotGenerated)
  | some _, none => some (.error .ErrTokenNotGenerated)
  | some _, some rc =>
    match IsValid rc now with
    | none => none
    | some false => some (.error .ErrTokenInvalid)
    | some true => some (GenerateToken t now)

end Hydrate

namespace Gauth

open Hydrate

/-- verifyToken of gauth.go: jwt.Parse with a keyfunc that rejects a token
whose header method differs from the expected signing method.  Only the
success or failure of the call matters to the claims, so the Go error
detail is collapsed. -/
def verifyToken (tokenString : SignedToken) (signingMethod : Alg)
    (secretKey : Secret) (now : Int) : Option ParsedToken :=
  jwtParse tokenString
    (fun tok => if tok.alg = signingMethod then .ok secretKey else .error ())
    now

end Gauth

namespace Hydrate

theorem lookupClaim_mapInsert_self (m : ClaimMap) (k : String) (v : GoVal) :
    lookupClaim (mapInsert m k v) k = some v := by
  induction m with
  | nil => simp [mapInsert, lookupClaim]
  | cons p ps ih =>
    by_cases h : p.1 = k
    · simp [mapInsert, h, lookupClaim]
    · simp [mapInsert, h, lookupClaim, ih]

theorem lookupClaim_mapInsert_ne (m : ClaimMap) (k : String) (v : GoVal)
    (k2 : String) (h : k2 ≠ k) :
    lookupClaim (mapInsert m k v) k2 = lookupClaim m k2 := by
  induction m with
  | nil => simp [mapInsert, lookupClaim, Ne.symm h]
  | cons p ps ih =>
    by_cases hp : p.1 = k
    · simp [mapInsert, hp, lookupClaim, Ne.symm h]
    · simp only [mapInsert, hp, if_false, lookupClaim]
      by_cases hp2 : p.1 = k2
      · simp [hp2]
      · simp [hp2, ih]

theorem keys_mapInsert_of_hasKey (m : ClaimMap) (k : String) (v : GoVal)
    (h : hasKey m k = true) :
    (mapInsert m k v).map Prod.fst = m.map Prod.fst := by
  induction m with
  | nil => simp [hasKey, lookupClaim] at h
  | cons p ps ih =>
    by_cases hp : p.1 = k
    · simp [mapInsert, hp]
    · have h2 : hasKey ps k = true := by
        simpa [hasKey, lookupClaim, hp] using h
      simp [mapInsert, hp, ih h2]

theorem lookupClaim_eq_none (m : ClaimMap) (k : String)
    (h : lookupClaim m k = none) : ∀ q ∈ m, q.1 ≠ k := by
  induction m with
  | nil => intro q hq; simp at hq
  | cons p ps ih =>
    intro q hq
    by_cases hp : p.1 = k
    · simp [lookupClaim, hp] at h
    · rcases List.mem_cons.mp hq with hq1 | hq2
      · exact hq1 ▸ hp
      · exact ih (by simpa [lookupClaim, hp] using h) q hq2

theorem lookupClaim_normClaims (m : ClaimMap) (k : String) :
    lookupClaim (normClaims m) k = (lookupClaim m k).map jsonNorm := by
  induction m with
  | nil => simp [normClaims, lookupClaim]
  | cons p ps ih =>
    unfold normClaims at ih ⊢
    by_cases hp : p.1 = k
    · simp [lookupClaim, hp]
    · simp [lookupClaim, hp, ih]

theorem keys_normClaims (m : ClaimMap) :
    (normClaims m).map Prod.fst = m.map Prod.fst := by
  induction m with
  | nil => rfl
  | cons p ps ih => simp [normClaims, ih]

theorem hasKey_normClaims (m : ClaimMap) (k : String) :
    hasKey (normClaims m) k = hasKey m k := by
  unfold hasKey
  rw [lookupClaim_normClaims]
  cases lookupClaim m k <;> rfl

theorem lookupClaim_copyCustomClaims_not_mem (custom : ClaimMap)
    (acc : ClaimMap) (k : String) (h : ∀ q ∈ custom, q.1 ≠ k) :
    lookupClaim (copyCustomClaims acc custom) k = lookupClaim acc k := by
  induction custom generalizing acc with
  | nil => rfl
  | cons p ps ih =>
    have hp : p.1 ≠ k := h p (List.mem_cons_self _ _)
    have hstep : copyCustomClaims acc (p :: ps)
        = copyCustomClaims (mapInsert acc p.1 p.2) ps := rfl
    rw [hstep, ih _ (fun q hq => h q (List.mem_cons_of_mem _ hq)),
      lookupClaim_mapInsert_ne _ _ _ _ (Ne.symm hp)]

theorem lookupClaim_copyCustomClaims_mem (custom : ClaimMap) (acc : ClaimMap)
    (k : String) (v : GoVal) (hnd : (custom.map Prod.fst).Nodup)
    (h : lookupClaim custom k = some v) :
    lookupClaim (copyCustomClaims acc custom) k = some v := by
  induction custom generalizing acc with
  | nil => simp [lookupClaim] at h
  | cons p ps ih =>
    have hstep : copyCustomClaims acc (p :: ps)
        = copyCustomClaims (mapInsert acc p.1 p.2) ps := rfl
    rw [hstep]
    have hnd2 : (p.1 :: List.map Prod.fst ps).Nodup := hnd
    obtain ⟨hhead, htail⟩ := List.nodup_cons.mp hnd2
    by_cases hpk : p.1 = k
    · have hv : v = p.2 := by
        have h3 := h
        simp [lookupClaim, hpk] at h3
        exact h3.symm
      have hnot : ∀ q ∈ ps, q.1 ≠ k := by
        intro q hq hqk
        have hq2 : q.1 ∈ List.map Prod.fst ps := List.mem_map_of_mem Prod.fst hq
        rw [hqk, ← hpk] at hq2
        exact hhead hq2
      rw [lookupClaim_copyCustomClaims_not_mem ps _ k hnot, hpk, hv,
        lookupClaim_mapInsert_self]
    · have h2 : lookupClaim ps k = some v := by
        simpa [lookupClaim, hpk] using h
      exact ih _ htail h2

theorem lookupClaim_copyCustomClaims (custom : ClaimMap) (k : String)
    (hnd : (custom.map Prod.fst).Nodup) :
    lookupClaim (copyCustomClaims [] custom) k = lookupClaim custom k := by
  cases h : lookupClaim custom k with
  | some v => exact lookupClaim_copyCustomClaims_mem custom [] k v hnd h
  | none =>
    rw [lookupClaim_copyCustomClaims_not_mem custom [] k (lookupClaim_eq_none custom k h)]
    rfl

theorem lookupClaim_stdInsertInt_ne (m : ClaimMap) (k : String) (v : Int)
    (k2 : String) (h : k2 ≠ k) :
    lookupClaim (stdInsertInt m k v) k2 = lookupClaim m k2 := by
  unfold stdInsertInt
  split
  · exact lookupClaim_mapInsert_ne m k _ k2 h
  · rfl

theorem lookupClaim_stdInsertStr_ne (m : ClaimMap) (k : String) (v : String)
    (k2 : String) (h : k2 ≠ k) :
    lookupClaim (stdInsertStr m k v) k2 = lookupClaim m k2 := by
  unfold stdInsertStr
  split
  · exact lookupClaim_mapInsert_ne m k _ k2 h
  · rfl

theorem lookupClaim_stdInsertInt_self (m : ClaimMap) (k : String) (v : Int) :
    lookupClaim (stdInsertInt m k v) k
      = if v ≠ 0 then some (GoVal.vInt v) else lookupClaim m k := by
  unfold stdInsertInt
  split
  · simp [lookupClaim_mapInsert_self, *]
  · simp [*]

theorem lookupClaim_stdInsertStr_self (m : ClaimMap) (k : String) (v : String) :
    lookupClaim (stdInsertStr m k v) k
      = if v ≠ "" then some (GoVal.vStr v) else lookupClaim m k := by
  unfold stdInsertStr
  split
  · simp [lookupClaim_mapInsert_self, *]
  · simp [*]

theorem lookupClaim_copyStandardClaims_exp (m : ClaimMap) (sc : StandardClaims) :
    lookupClaim (copyStandardClaims m sc) "exp"
      = if sc.ExpiresAt ≠ 0 then some (GoVal.vInt sc.ExpiresAt)
        else lookupClaim m "exp" := by
  unfold copyStandardClaims
  rw [lookupClaim_stdInsertStr_ne _ _ _ _ (by decide),
    lookupClaim_stdInsertStr_ne _ _ _ _ (by decide),
    lookupClaim_stdInsertInt_ne _ _ _ _ (by decide),
    lookupClaim_stdInsertInt_ne _ _ _ _ (by decide),
    lookupClaim_stdInsertStr_ne _ _ _ _ (by decide),
    lookupClaim_stdInsertStr_ne _ _ _ _ (by decide),
    lookupClaim_stdInsertInt_self]

theorem lookupClaim_copyStandardClaims_iss (m : ClaimMap) (sc : StandardClaims) :
    lookupClaim (copyStandardClaims m sc) "iss"
      = if sc.Issuer ≠ "" then some (GoVal.vStr sc.Issuer)
        else lookupClaim m "iss" := by
  unfold copyStandardClaims
  rw [lookupClaim_stdInsertStr_ne _ _ _ _ (by decide),
    lookupClaim_stdInsertStr_ne _ _ _ _ (by decide),
    lookupClaim_stdInsertInt_ne _ _ _ _ (by decide),
    lookupClaim_stdInsertInt_ne _ _ _ _ (by decide),
    lookupClaim_stdInsertStr_ne _ _ _ _ (by decide),
    lookupClaim_stdInsertStr_self,
    lookupClaim_stdInsertInt_ne _ _ _ _ (by decide)]

theorem lookupClaim_copyStandardClaims_aud (m : ClaimMap) (sc : StandardClaims) :
    lookupClaim (copyStandardClaims m sc) "aud"
      = if sc.Audience ≠ "" then some (GoVal.vStr sc.Audience)
        else lookupClaim m "aud" := by
  unfold copyStandardClaims
  rw [lookupClaim_stdInsertStr_ne _ _ _ _ (by decide),
    lookupClaim_stdInsertStr_ne _ _ _ _ (by decide),
    lookupClaim_stdInsertInt_ne _ _ _ _ (by decide),
    lookupClaim_stdInsertInt_ne _ _ _ _ (by decide),
    lookupClaim_stdInsertStr_self,
    lookupClaim_stdInsertStr_ne _ _ _ _ (by decide),
    lookupClaim_stdInsertInt_ne _ _ _ _ (by decide)]

theorem lookupClaim_copyStandardClaims_iat (m : ClaimMap) (sc : StandardClaims) :
    lookupClaim (copyStandardClaims m sc) "iat"
      = if sc.IssuedAt ≠ 0 then some (GoVal.vInt sc.IssuedAt)
        else lookupClaim m "iat" := by
  unfold copyStandardClaims
  rw [lookupClaim_stdInsertStr_ne _ _ _ _ (by decide),
    lookupClaim_stdInsertStr_ne _ _ _ _ (by decide),
    lookupClaim_stdInsertInt_ne _ _ _ _ (by decide),
    lookupClaim_stdInsertInt_self,
    lookupClaim_stdInsertStr_ne _ _ _ _ (by decide),
    lookupClaim_stdInsertStr_ne _ _ _ _ (by decide),
    lookupClaim_stdInsertInt_ne _ _ _ _ (by decide)]

theorem lookupClaim_copyStandardClaims_nbf (m : ClaimMap) (sc : StandardClaims) :
    lookupClaim (copyStandardClaims m sc) "nbf"
      = if sc.NotBefore ≠ 0 then some (GoVal.vInt sc.NotBefore)
        else lookupClaim m "nbf" := by
  unfold copyStandardClaims
  rw [lookupClaim_stdInsertStr_ne _ _ _ _ (by decide),
    lookupClaim_stdInsertStr_ne _ _ _ _ (by decide),
    lookupClaim_stdInsertInt_self,
    lookupClaim_stdInsertInt_ne _ _ _ _ (by decide),
    lookupClaim_stdInsertStr_ne _ _ _ _ (by decide),
    lookupClaim_stdInsertStr_ne _ _ _ _ (by decide),
    lookupClaim_stdInsertInt_ne _ _ _ _ (by decide)]

theorem lookupClaim_copyStandardClaims_sub (m : ClaimMap) (sc : StandardClaims) :
    lookupClaim (copyStandardClaims m sc) "sub"
      = if sc.Subject ≠ "" then some (GoVal.vStr sc.Subject)
        else lookupClaim m "sub" := by
  unfold copyStandardClaims
  rw [lookupClaim_stdInsertStr_ne _ _ _ _ (by decide),
    lookupClaim_stdInsertStr_self,
    lookupClaim_stdInsertInt_ne _ _ _ _ (by decide),
    lookupClaim_stdInsertInt_ne _ _ _ _ (by decide),
    lookupClaim_stdInsertStr_ne _ _ _ _ (by decide),
    lookupClaim_stdInsertStr_ne _ _ _ _ (by decide),
    lookupClaim_stdInsertInt_ne _ _ _ _ (by decide)]

theorem lookupClaim_copyStandardClaims_jti (m : ClaimMap) (sc : StandardClaims) :
    lookupClaim (copyStandardClaims m sc) "jti"
      = if sc.Id ≠ "" then some (GoVal.vStr sc.Id)
        else lookupClaim m "jti" := by
  unfold copyStandardClaims
  rw [lookupClaim_stdInsertStr_self,
    lookupClaim_stdInsertStr_ne _ _ _ _ (by decide),
    lookupClaim_stdInsertInt_ne _ _ _ _ (by decide),
    lookupClaim_stdInsertInt_ne _ _ _ _ (by decide),
    lookupClaim_stdInsertStr_ne _ _ _ _ (by decide),
    lookupClaim_stdInsertStr_ne _ _ _ _ (by decide),
    lookupClaim_stdInsertInt_ne _ _ _ _ (by decide)]

theorem lookupClaim_copyStandardClaims_other (m : ClaimMap) (sc : StandardClaims)
    (k : String) (h1 : k ≠ "exp") (h2 : k ≠ "iss") (h3 : k ≠ "aud")
    (h4 : k ≠ "iat") (h5 : k ≠ "nbf") (h6 : k ≠ "sub") (h7 : k ≠ "jti") :
    lookupClaim (copyStandardClaims m sc) k = lookupClaim m k := by
  unfold copyStandardClaims
  rw [lookupClaim_stdInsertStr_ne _ _ _ _ h7,
    lookupClaim_stdInsertStr_ne _ _ _ _ h6,
    lookupClaim_stdInsertInt_ne _ _ _ _ h5,
    lookupClaim_stdInsertInt_ne _ _ _ _ h4,
    lookupClaim_stdInsertStr_ne _ _ _ _ h3,
    lookupClaim_stdInsertStr_ne _ _ _ _ h2,
    lookupClaim_stdInsertInt_ne _ _ _ _ h1]

theorem keys_updateExpiration (t : TokenConfig) (claims : ClaimMap) (now : Int) :
    (updateExpiration t claims now).map Prod.fst = claims.map Prod.fst := by
  unfold updateExpiration
  split
  · exact keys_mapInsert_of_hasKey _ _ _ (by assumption)
  · rfl

theorem keys_updateIssuedAt (claims : ClaimMap) (now : Int) :
    (updateIssuedAt claims now).map Prod.fst = claims.map Prod.fst := by
  unfold updateIssuedAt
  split
  · exact keys_mapInsert_of_hasKey _ _ _ (by assumption)
  · rfl

theorem lookupClaim_updateExpiration_ne (t : TokenConfig) (claims : ClaimMap)
    (now : Int) (k : String) (h : k ≠ "exp") :
    lookupClaim (updateExpiration t claims now) k = lookupClaim claims k := by
  unfold updateExpiration
  split
  · exact lookupClaim_mapInsert_ne _ _ _ _ h
  · rfl

theorem lookupClaim_updateIssuedAt_ne (claims : ClaimMap) (now : Int)
    (k : String) (h : k ≠ "iat") :
    lookupClaim (updateIssuedAt claims now) k = lookupClaim claims k := by
  unfold updateIssuedAt
  split
  · exact lookupClaim_mapInsert_ne _ _ _ _ h
  · rfl

theorem lookupClaim_updateExpiration_present (t : TokenConfig) (claims : ClaimMap)
    (now : Int) (h : hasKey claims "exp" = true) :
    lookupClaim (updateExpiration t claims now) "exp"
      = some (GoVal.vInt (now + t.expiration)) := by
  unfold updateExpiration
  rw [if_pos h]
  exact lookupClaim_mapInsert_self _ _ _

theorem lookupClaim_updateIssuedAt_present (claims : ClaimMap) (now : Int)
    (h : hasKey claims "iat" = true) :
    lookupClaim (updateIssuedAt claims now) "iat" = some (GoVal.vInt now) := by
  unfold updateIssuedAt
  rw [if_pos h]
  exact lookupClaim_mapInsert_self _ _ _

theorem hasKey_updateExpiration_iat (t : TokenConfig) (claims : ClaimMap) (now : Int) :
    hasKey (updateExpiration t claims now) "iat" = hasKey claims "iat" := by
  unfold hasKey
  rw [lookupClaim_updateExpiration_ne _ _ _ _ (by decide)]

/-- A token whose header declares HS384, HMAC-signed under HS384 with the
very secret held by the HS256 configuration below. -/
def c1Token : SignedToken :=
  signToken .HS384 [1, 2, 3] [("role", GoVal.vStr "admin")]

/-- A configuration whose expected signing method is HS256 and whose stored
token is the HS384-signed c1Token. -/
def c1Config : TokenConfig :=
  { secretKey := some [1, 2, 3], signingMethod := .HS256, standardClaims := {},
    customClaims := [], token := some c1Token, expiration := 0 }

/-- Claim C1: the claim states that ParseToken rejects, with ErrTokenInvalid,
every token whose header algorithm differs from the configured signing
method.  The code does not: the keyfunc of hydrate ParseToken never inspects
the token method, so jwt.Parse verifies with the header-declared algorithm
and the configured secret and accepts.  Here a token declaring HS384 is
accepted by a configuration expecting HS256.  The algorithm check exists
only in the gauth.go variant (verifyToken). -/
theorem c1_parseToken_accepts_mismatched_alg :
    c1Token.alg ≠ c1Config.signingMethod
      ∧ ParseToken c1Config 0
          = .ok ⟨.HS384, [("role", GoVal.vStr "admin")], true⟩ := by
  exact ⟨by decide, rfl⟩

/-- Claim C2: the claim states that IsValid never panics on any reachable
stored token, in particular one generated from a custom-claims map binding
exp to a non-numeric value with no standard claims set.  The code does
panic there: the token parses (the jwt v3.2.2 time checks skip a non-float
exp), and IsValid then runs the unchecked float64 type assertion on the
string value, which aborts.  The none result of the IsValid model is that
panic. -/
theorem c2_isValid_panics_on_nonnumeric_exp :
    ∃ cfg tok cfg2,
      NewToken [SecretKey [9], WithCustomClaims [("exp", GoVal.vStr "soon")]]
        = .ok cfg
      ∧ GenerateToken cfg 0 = .ok (tok, cfg2)
      ∧ IsValid cfg2 0 = none := by
  exact ⟨_, _, _, rfl, rfl, rfl⟩

/-- Claim C4: the composed claim map starts from the custom claims and each
standard field with a non-default value overwrites the custom claim under
its reserved key; keys outside the reserved set are taken from the custom
claims unchanged; in particular a non-zero standard expiration T beats a
custom exp entry. -/
theorem c4_copyClaims_standard_overrides_custom (sc : StandardClaims)
    (cc : ClaimMap) (hnd : (cc.map Prod.fst).Nodup) :
    (lookupClaim (copyClaims [] sc cc) "exp"
      = if sc.ExpiresAt ≠ 0 then some (GoVal.vInt sc.ExpiresAt)
        else lookupClaim cc "exp")
  ∧ (lookupClaim (copyClaims [] sc cc) "iss"
      = if sc.Issuer ≠ "" then some (GoVal.vStr sc.Issuer)
        else lookupClaim cc "iss")
  ∧ (lookupClaim (copyClaims [] sc cc) "aud"
      = if sc.Audience ≠ "" then some (GoVal.vStr sc.Audience)
        else lookupClaim cc "aud")
  ∧ (lookupClaim (copyClaims [] sc cc) "iat"
      = if sc.IssuedAt ≠ 0 then some (GoVal.vInt sc.IssuedAt)
        else lookupClaim cc "iat")
  ∧ (lookupClaim (copyClaims [] sc cc) "nbf"
      = if sc.NotBefore ≠ 0 then some (GoVal.vInt sc.NotBefore)
        else lookupClaim cc "nbf")
  ∧ (lookupClaim (copyClaims [] sc cc) "sub"
      = if sc.Subject ≠ "" then some (GoVal.vStr sc.Subject)
        else lookupClaim cc "sub")
  ∧ (lookupClaim (copyClaims [] sc cc) "jti"
      = if sc.Id ≠ "" then some (GoVal.vStr sc.Id)
        else lookupClaim cc "jti")
  ∧ (∀ k, k ≠ "exp" → k ≠ "iss" → k ≠ "aud" → k ≠ "iat" → k ≠ "nbf" →
      k ≠ "sub" → k ≠ "jti" →
      lookupClaim (copyClaims [] sc cc) k = lookupClaim cc k)
  ∧ (∀ T : Int, T ≠ 0 →
      lookupClaim (copyClaims [] { ExpiresAt := T } [("exp", GoVal.vInt 999)])
          "exp"
        = some (GoVal.vInt T)) := by
  have hbase : ∀ k, lookupClaim (copyCustomClaims [] cc) k = lookupClaim cc k :=
    fun k => lookupClaim_copyCustomClaims cc k hnd
  refine ⟨?_, ?_, ?_, ?_, ?_, ?_, ?_, ?_, ?_⟩
  · simp only [copyClaims, lookupClaim_copyStandardClaims_exp, hbase]
  · simp only [copyClaims, lookupClaim_copyStandardClaims_iss, hbase]
  · simp only [copyClaims, lookupClaim_copyStandardClaims_aud, hbase]
  · simp only [copyClaims, lookupClaim_copyStandardClaims_iat, hbase]
  · simp only [copyClaims, lookupClaim_copyStandardClaims_nbf, hbase]
  · simp only [copyClaims, lookupClaim_copyStandardClaims_sub, hbase]
  · simp only [copyClaims, lookupClaim_copyStandardClaims_jti, hbase]
  · intro k h1 h2 h3 h4 h5 h6 h7
    rw [copyClaims,
      lookupClaim_copyStandardClaims_other _ _ _ h1 h2 h3 h4 h5 h6 h7, hbase]
  · intro T hT
    rw [copyClaims, lookupClaim_copyStandardClaims_exp]
    simp [hT]

/-- Witness for claim C4 at concrete inputs: the custom exp entry 999 is
overwritten by the standard expiration 5. -/
theorem c4_witness :
    lookupClaim (copyClaims [] { ExpiresAt := 5 } [("exp", GoVal.vInt 999)])
        "exp"
      = some (GoVal.vInt 5) := by
  exact (c4_copyClaims_standard_overrides_custom
    { ExpiresAt := 5 } [("exp", GoVal.vInt 999)]
    (by decide)).2.2.2.2.2.2.2.2 5 (by decide)

/-- Claim C8: a reserved key occurs in the standard-claims contribution
exactly when the corresponding field is non-default (non-zero integer,
non-empty string), and an all-default record contributes nothing at all. -/
theorem c8_copyStandardClaims_nondefault_filter (sc : StandardClaims) :
    (hasKey (copyStandardClaims [] sc) "exp" = true ↔ sc.ExpiresAt ≠ 0)
  ∧ (hasKey (copyStandardClaims [] sc) "iss" = true ↔ sc.Issuer ≠ "")
  ∧ (hasKey (copyStandardClaims [] sc) "aud" = true ↔ sc.Audience ≠ "")
  ∧ (hasKey (copyStandardClaims [] sc) "iat" = true ↔ sc.IssuedAt ≠ 0)
  ∧ (hasKey (copyStandardClaims [] sc) "nbf" = true ↔ sc.NotBefore ≠ 0)
  ∧ (hasKey (copyStandardClaims [] sc) "sub" = true ↔ sc.Subject ≠ "")
  ∧ (hasKey (copyStandardClaims [] sc) "jti" = true ↔ sc.Id ≠ "")
  ∧ (∀ m : ClaimMap, sc = {} → copyStandardClaims m sc = m) := by
  refine ⟨?_, ?_, ?_, ?_, ?_, ?_, ?_, ?_⟩
  · unfold hasKey
    rw [lookupClaim_copyStandardClaims_exp]
    split <;> simp_all [lookupClaim]
  · unfold hasKey
    rw [lookupClaim_copyStandardClaims_iss]
    split <;> simp_all [lookupClaim]
  · unfold hasKey
    rw [lookupClaim_copyStandardClaims_aud]
    split <;> simp_all [lookupClaim]
  · unfold hasKey
    rw [lookupClaim_copyStandardClaims_iat]
    split <;> simp_all [lookupClaim]
  · unfold hasKey
    rw [lookupClaim_copyStandardClaims_nbf]
    split <;> simp_all [lookupClaim]
  · unfold hasKey
    rw [lookupClaim_copyStandardClaims_sub]
    split <;> simp_all [lookupClaim]
  · unfold hasKey
    rw [lookupClaim_copyStandardClaims_jti]
    split <;> simp_all [lookupClaim]
  · intro m h
    subst h
    rfl

/-- Witness for claim C8: the all-default record contributes no keys to a
concrete base map. -/
theorem c8_witness :
    copyStandardClaims [("role", GoVal.vStr "admin")] {}
      = [("role", GoVal.vStr "admin")] := by
  exact (c8_copyStandardClaims_nondefault_filter {}).2.2.2.2.2.2.2 _ rfl

/-- Claim C7: GenerateTokenPair fails with ErrTokenConfigNil when either
configuration is nil, and otherwise either returns both tokens with no
error or returns no token at all together with the first error; exactly
one token is never returned. -/
theorem c7_generateTokenPair_all_or_nothing (a b : Option TokenConfig) (now : Int) :
    ((a = none ∨ b = none) →
      GenerateTokenPair a b now
        = ⟨none, none, some .ErrTokenConfigNil, a, b⟩)
  ∧ ((GenerateTokenPair a b now).err = none
        ∧ (GenerateTokenPair a b now).accessToken.isSome = true
        ∧ (GenerateTokenPair a b now).refreshToken.isSome = true
      ∨ (GenerateTokenPair a b now).err.isSome = true
        ∧ (GenerateTokenPair a b now).accessToken = none
        ∧ (GenerateTokenPair a b now).refreshToken = none) := by
  constructor
  · intro h
    cases a with
    | none => rfl
    | some x =>
      cases b with
      | none => rfl
      | some y => rcases h with h | h <;> simp at h
  · cases a with
    | none => exact Or.inr ⟨rfl, rfl, rfl⟩
    | some x =>
      cases b with
      | none => exact Or.inr ⟨rfl, rfl, rfl⟩
      | some y =>
        rcases hA : GenerateToken x now with e | ⟨ta, a2⟩
        · refine Or.inr ?_
          simp [GenerateTokenPair, hA]
        · rcases hB : GenerateToken y now with e | ⟨tb, b2⟩
          · refine Or.inr ?_
            simp [GenerateTokenPair, hA, hB]
          · refine Or.inl ?_
            simp [GenerateTokenPair, hA, hB]

/-- Witness for claim C7 at a concrete input: both configurations nil. -/
theorem c7_witness :
    GenerateTokenPair none none 0
      = ⟨none, none, some .ErrTokenConfigNil, none, none⟩ := by
  exact (c7_generateTokenPair_all_or_nothing none none 0).1 (Or.inl rfl)

theorem mapVerifyExpiresAt_eq_false (m : ClaimMap) (now e : Int)
    (h : lookupClaim m "exp" = some (GoVal.vNum e)) (h0 : e ≠ 0)
    (hlt : ¬ now ≤ e) :
    mapVerifyExpiresAt m now = false := by
  unfold mapVerifyExpiresAt
  rw [h]
  simp [h0, hlt]

theorem mapVerifyExpiresAt_eq_true_of_le (m : ClaimMap) (now e : Int)
    (h : lookupClaim m "exp" = some (GoVal.vNum e)) (hle : now ≤ e) :
    mapVerifyExpiresAt m now = true := by
  unfold mapVerifyExpiresAt
  rw [h]
  by_cases h0 : e = 0 <;> simp [h0, hle]

theorem mapClaimsValid_eq_false_of_exp (m : ClaimMap) (now : Int)
    (h : mapVerifyExpiresAt m now = false) :
    mapClaimsValid m now = false := by
  unfold mapClaimsValid
  rw [h]
  rfl

theorem mapClaimsValid_eq_true (m : ClaimMap) (now : Int)
    (h1 : mapVerifyExpiresAt m now = true)
    (h2 : mapVerifyIssuedAt m now = true)
    (h3 : mapVerifyNotBefore m now = true) :
    mapClaimsValid m now = true := by
  unfold mapClaimsValid
  rw [h1, h2, h3]
  rfl

theorem ParseToken_ok_of (t : TokenConfig) (tok : SignedToken) (now : Int)
    (htok : t.token = some tok)
    (hval : mapClaimsValid (normClaims tok.payload) now = true)
    (hsig : tok.sig = (tok.alg, expose t, tok.payload)) :
    ParseToken t now = .ok ⟨tok.alg, normClaims tok.payload, true⟩ := by
  unfold ParseToken jwtParse
  rw [htok]
  simp [hval, hsig]

theorem ParseToken_error_of_claims_invalid (t : TokenConfig) (tok : SignedToken)
    (now : Int) (htok : t.token = some tok)
    (hval : mapClaimsValid (normClaims tok.payload) now = false) :
    ParseToken t now = .error .ErrTokenInvalid := by
  unfold ParseToken jwtParse
  rw [htok]
  simp [hval]

theorem ParseToken_ok_inv (t : TokenConfig) (tok : SignedToken) (now : Int)
    (p : ParsedToken) (htok : t.token = some tok)
    (h : ParseToken t now = .ok p) :
    p = ⟨tok.alg, normClaims tok.payload, true⟩ := by
  unfold ParseToken jwtParse at h
  rw [htok] at h
  by_cases hc : (mapClaimsValid (normClaims tok.payload) now
      && decide (tok.sig = (tok.alg, expose t, tok.payload))) = true
  · simp only [hc, if_true] at h
    exact (Except.ok.inj h).symm
  · rw [Bool.not_eq_true] at hc
    simp only [hc] at h
    exact Except.noConfusion h

theorem IsValid_eq_of_ok (t : TokenConfig) (tok : SignedToken) (now : Int)
    (p : ParsedToken) (htok : t.token = some tok)
    (h : ParseToken t now = .ok p) :
    IsValid t now
      = match lookupClaim p.claims "exp" with
        | some (GoVal.vNum e) => if e < now then some false else some true
        | some _ => none
        | none => some true := by
  unfold IsValid
  rw [htok, h]

theorem IsValid_of_parse_error (t : TokenConfig) (tok : SignedToken) (now : Int)
    (er : GauthErr) (htok : t.token = some tok)
    (h : ParseToken t now = .error er) :
    IsValid t now = some false := by
  unfold IsValid
  rw [htok, h]

theorem ExtractClaims_of_parse_error (t : TokenConfig) (tok : SignedToken)
    (now : Int) (er : GauthErr) (htok : t.token = some tok)
    (h : ParseToken t now = .error er) :
    ExtractClaims t now = .error er := by
  unfold ExtractClaims
  rw [htok, h]

/-- The token signed on the first (unissued) generation path: the composed
claims signed with the configured method and secret. -/
def freshToken (t : TokenConfig) : SignedToken :=
  signToken t.signingMethod (expose t) (copyClaims [] t.standardClaims t.customClaims)

theorem GenerateToken_unissued (t : TokenConfig) (now : Int)
    (h : t.token = none) :
    GenerateToken t now
      = .ok (freshToken t, { t with token := some (freshToken t) }) := by
  unfold GenerateToken freshToken
  rw [h]

/-- The token signed on the regeneration path, given the parsed claims p of
the stored token: exp and iat rotated, re-signed with the same method and
secret. -/
def regenSigned (t : TokenConfig) (p : ParsedToken) (now : Int) : SignedToken :=
  signToken t.signingMethod (expose t)
    (updateIssuedAt (updateExpiration t p.claims now) now)

theorem regenerateToken_eq_of_parse_ok (t : TokenConfig) (tok : SignedToken)
    (now : Int) (p : ParsedToken) (htok : t.token = some tok)
    (h : ParseToken t now = .ok p) :
    regenerateToken t now
      = .ok (regenSigned t p now, { t with token := some (regenSigned t p now) }) := by
  unfold regenerateToken regenSigned
  rw [htok, h]

theorem GenerateToken_ok_token (t : TokenConfig) (now : Int) (ta : SignedToken)
    (t2 : TokenConfig) (h : GenerateToken t now = .ok (ta, t2)) :
    t2.token = some ta := by
  cases htok : t.token with
  | none =>
    rw [GenerateToken_unissued t now htok] at h
    simp only [Except.ok.injEq, Prod.mk.injEq] at h
    obtain ⟨h1, h2⟩ := h
    rw [← h2, ← h1]
  | some tok =>
    unfold GenerateToken regenerateToken at h
    rw [htok] at h
    cases hp : ParseToken t now with
    | error er =>
      rw [hp] at h
      exact Except.noConfusion h
    | ok p =>
      rw [hp] at h
      simp only [Except.ok.injEq, Prod.mk.injEq] at h
      obtain ⟨h1, h2⟩ := h
      rw [← h2, ← h1]

/-- Claim C3: for a configuration that has issued a token whose stored
value still parses, regeneration succeeds and produces a token whose claim
map has exactly the key set of the original payload; every key other than
exp and iat keeps its original value up to JSON numeric normalization; a
present exp is recomputed as now plus the derived duration and a present
iat is recomputed as now. -/
theorem c3_regenerateToken_claim_preserving (t : TokenConfig)
    (tok : SignedToken) (now : Int) (p : ParsedToken)
    (htok : t.token = some tok) (hparse : ParseToken t now = .ok p) :
    regenerateToken t now
      = .ok (regenSigned t p now, { t with token := some (regenSigned t p now) })
    ∧ (regenSigned t p now).payload.map Prod.fst = tok.payload.map Prod.fst
    ∧ (∀ k, k ≠ "exp" → k ≠ "iat" →
        lookupClaim (regenSigned t p now).payload k
          = (lookupClaim tok.payload k).map jsonNorm)
    ∧ (hasKey tok.payload "exp" = true →
        lookupClaim (regenSigned t p now).payload "exp"
          = some (GoVal.vInt (now + t.expiration)))
    ∧ (hasKey tok.payload "iat" = true →
        lookupClaim (regenSigned t p now).payload "iat"
          = some (GoVal.vInt now)) := by
  have hclaims : p.claims = normClaims tok.payload := by
    rw [ParseToken_ok_inv t tok now p htok hparse]
  refine ⟨regenerateToken_eq_of_parse_ok t tok now p htok hparse, ?_, ?_, ?_, ?_⟩
  · show (updateIssuedAt (updateExpiration t p.claims now) now).map Prod.fst
        = tok.payload.map Prod.fst
    rw [keys_updateIssuedAt, keys_updateExpiration, hclaims, keys_normClaims]
  · intro k hke hki
    show lookupClaim (updateIssuedAt (updateExpiration t p.claims now) now) k
        = (lookupClaim tok.payload k).map jsonNorm
    rw [lookupClaim_updateIssuedAt_ne _ _ _ hki,
      lookupClaim_updateExpiration_ne _ _ _ _ hke, hclaims,
      lookupClaim_normClaims]
  · intro hx
    have hx2 : hasKey p.claims "exp" = true := by
      rw [hclaims, hasKey_normClaims]
      exact hx
    show lookupClaim (updateIssuedAt (updateExpiration t p.claims now) now) "exp"
        = some (GoVal.vInt (now + t.expiration))
    rw [lookupClaim_updateIssuedAt_ne _ _ _ (by decide),
      lookupClaim_updateExpiration_present _ _ _ hx2]
  · intro hi
    have hi1 : hasKey p.claims "iat" = true := by
      rw [hclaims, hasKey_normClaims]
      exact hi
    have hi2 : hasKey (updateExpiration t p.claims now) "iat" = true := by
      rw [hasKey_updateExpiration_iat]
      exact hi1
    exact lookupClaim_updateIssuedAt_present _ _ hi2

/-- The configuration of the C3 witness: issued, with issuer and expiration
claims in the stored token and a derived duration of 60 seconds. -/
def c3Token : SignedToken :=
  signToken .HS256 [3] [("iss", GoVal.vStr "test"), ("exp", GoVal.vInt 100)]

/-- The C3 witness configuration holding c3Token. -/
def c3Config : TokenConfig :=
  { secretKey := some [3], signingMethod := .HS256, standardClaims := {},
    customClaims := [], token := some c3Token, expiration := 60 }

/-- The parse result of c3Token at time 50. -/
def c3Parsed : ParsedToken :=
  ⟨.HS256, [("iss", GoVal.vStr "test"), ("exp", GoVal.vNum 100)], true⟩

/-- Witness for claim C3 at time 50: the issuer claim is preserved exactly
and the expiration claim is recomputed as 50 + 60. -/
theorem c3_witness :
    regenerateToken c3Config 50
      = .ok (regenSigned c3Config c3Parsed 50,
             { c3Config with token := some (regenSigned c3Config c3Parsed 50) })
    ∧ lookupClaim (regenSigned c3Config c3Parsed 50).payload "iss"
        = some (GoVal.vStr "test")
    ∧ lookupClaim (regenSigned c3Config c3Parsed 50).payload "exp"
        = some (GoVal.vInt 110) := by
  obtain ⟨h1, hkeys, hother, hx, hi⟩ :=
    c3_regenerateToken_claim_preserving c3Config c3Token 50 c3Parsed rfl rfl
  refine ⟨h1, ?_, ?_⟩
  · exact (hother "iss" (by decide) (by decide)).trans (by decide)
  · exact (hx (by decide)).trans (by decide)

/-- The token used against claim C5: valid signature under the secret of
c5Config, a numeric exp claim equal to the check time 100, but a not-before
claim of 200 that is still in the future at the check time. -/
def c5Token : SignedToken :=
  signToken .HS256 [7] [("exp", GoVal.vInt 100), ("nbf", GoVal.vInt 200)]

/-- The configuration holding c5Token. -/
def c5Config : TokenConfig :=
  { secretKey := some [7], signingMethod := .HS256, standardClaims := {},
    customClaims := [], token := some c5Token, expiration := 60 }

/-- Counterexample to claim C5 as stated: an issued token with a valid
signature and a numeric exp claim equal to the current time 100 for which
IsValid returns false rather than true, because jwt.Parse also validates
the not-before claim, which is still in the future.  The universally
quantified claim omits that side condition. -/
theorem c5_counterexample :
    c5Token.sig = (c5Token.alg, expose c5Config, c5Token.payload)
    ∧ lookupClaim c5Token.payload "exp" = some (GoVal.vInt 100)
    ∧ IsValid c5Config 100 = some false := by
  exact ⟨rfl, rfl, rfl⟩

/-- Claim C5, amended: for an issued token carrying a numeric exp claim of
value e, IsValid returns false whenever e is strictly below the current
time, and returns true when e equals the current time provided the
signature is valid and the not-before and issued-at validations of
jwt.Parse also pass — the expiry comparison itself is strictly-less-than
with no lenience window. -/
theorem c5_expiry_strictness (t : TokenConfig) (tok : SignedToken)
    (e now : Int) (htok : t.token = some tok)
    (hexp : lookupClaim (normClaims tok.payload) "exp" = some (GoVal.vNum e)) :
    (e < now → IsValid t now = some false)
    ∧ (e = now →
        tok.sig = (tok.alg, expose t, tok.payload) →
        mapVerifyIssuedAt (normClaims tok.payload) now = true →
        mapVerifyNotBefore (normClaims tok.payload) now = true →
        IsValid t now = some true) := by
  constructor
  · intro hlt
    by_cases h0 : e = 0
    · cases hp : ParseToken t now with
      | error er => exact IsValid_of_parse_error t tok now er htok hp
      | ok p =>
        have hpc : p = ⟨tok.alg, normClaims tok.payload, true⟩ :=
          ParseToken_ok_inv t tok now p htok hp
        rw [IsValid_eq_of_ok t tok now p htok hp, hpc]
        simp only []
        rw [hexp]
        simp [hlt]
    · have hfail : ParseToken t now = .error .ErrTokenInvalid :=
        ParseToken_error_of_claims_invalid t tok now htok
          (mapClaimsValid_eq_false_of_exp _ _
            (mapVerifyExpiresAt_eq_false _ now e hexp h0 (by omega)))
      exact IsValid_of_parse_error t tok now _ htok hfail
  · intro he hsig hiat hnbf
    have hval : mapClaimsValid (normClaims tok.payload) now = true :=
      mapClaimsValid_eq_true _ _
        (mapVerifyExpiresAt_eq_true_of_le _ now e hexp (by omega)) hiat hnbf
    have hp := ParseToken_ok_of t tok now htok hval hsig
    rw [IsValid_eq_of_ok t tok now _ htok hp]
    simp only []
    rw [hexp]
    simp [he]

/-- Witness token for the true direction of the amended claim C5: exp equal
to the check time 100. -/
def c5wToken : SignedToken := signToken .HS256 [4] [("exp", GoVal.vInt 100)]

/-- Witness configuration holding c5wToken. -/
def c5wConfig : TokenConfig :=
  { secretKey := some [4], signingMethod := .HS256, standardClaims := {},
    customClaims := [], token := some c5wToken, expiration := 60 }

/-- Witness token for the false direction of the amended claim C5: exp 99,
strictly before the check time 100. -/
def c5wToken2 : SignedToken := signToken .HS256 [4] [("exp", GoVal.vInt 99)]

/-- Witness configuration holding c5wToken2. -/
def c5wConfig2 : TokenConfig :=
  { secretKey := some [4], signingMethod := .HS256, standardClaims := {},
    customClaims := [], token := some c5wToken2, expiration := 60 }

/-- Witness for the amended claim C5 at concrete inputs: exp equal to now
is still valid; exp one second before now is invalid. -/
theorem c5_witness :
    IsValid c5wConfig 100 = some true
    ∧ IsValid c5wConfig2 100 = some false := by
  constructor
  · exact (c5_expiry_strictness c5wConfig c5wToken 100 100 rfl rfl).2
      rfl rfl rfl rfl
  · exact (c5_expiry_strictness c5wConfig2 c5wToken2 99 100 rfl rfl).1
      (by decide)

theorem NewToken_secret_std_inv (key : Secret) (now : Int)
    (sc : StandardClaims) (cfg : TokenConfig)
    (h : NewToken [SecretKey key, WithStandardClaims now sc] = .ok cfg) :
    key ≠ [] ∧ sc.ExpiresAt ≠ 0
    ∧ cfg = { secretKey := some key, signingMethod := .HS256,
              standardClaims := sc, customClaims := [], token := none,
              expiration := sc.ExpiresAt - now } := by
  by_cases hkey : key = []
  · rw [hkey] at h
    simp [NewToken, applyOptions, SecretKey, newSecret] at h
  · by_cases hexp : sc.ExpiresAt = 0
    · simp [NewToken, applyOptions, SecretKey, newSecret, hkey,
        WithStandardClaims, hexp] at h
    · refine ⟨hkey, hexp, ?_⟩
      simp [NewToken, applyOptions, SecretKey, newSecret, hkey,
        WithStandardClaims, hexp] at h
      exact h.symm

/-- Claim C6: a configuration built from a valid secret and standard claims
whose expiration lies one hour in the past still generates successfully,
and on the resulting configuration IsValid returns false and ExtractClaims
fails with exactly ErrTokenInvalid. -/
theorem generate_expired_invalid (cfg : TokenConfig) (now : Int)
    (htok : cfg.token = none)
    (hne : cfg.standardClaims.ExpiresAt ≠ 0)
    (hcc : cfg.customClaims = [])
    (hlt : cfg.standardClaims.ExpiresAt < now) :
    GenerateToken cfg now
      = .ok (freshToken cfg, { cfg with token := some (freshToken cfg) })
    ∧ IsValid { cfg with token := some (freshToken cfg) } now = some false
    ∧ ExtractClaims { cfg with token := some (freshToken cfg) } now
        = .error .ErrTokenInvalid := by
  have hpay : (freshToken cfg).payload
      = copyStandardClaims [] cfg.standardClaims := by
    show copyClaims [] cfg.standardClaims cfg.customClaims = _
    rw [hcc]
    rfl
  have hlook : lookupClaim (normClaims (freshToken cfg).payload) "exp"
      = some (GoVal.vNum cfg.standardClaims.ExpiresAt) := by
    rw [lookupClaim_normClaims, hpay, lookupClaim_copyStandardClaims_exp]
    simp [hne, jsonNorm]
  have htok2 : ({ cfg with token := some (freshToken cfg) } : TokenConfig).token
      = some (freshToken cfg) := rfl
  have hfail := ParseToken_error_of_claims_invalid _ _ now htok2
    (mapClaimsValid_eq_false_of_exp _ _
      (mapVerifyExpiresAt_eq_false _ now _ hlook hne (by omega)))
  exact ⟨GenerateToken_unissued cfg now htok,
    IsValid_of_parse_error _ _ now _ htok2 hfail,
    ExtractClaims_of_parse_error _ _ now _ htok2 hfail⟩

/-- Claim C6: a configuration built from a valid secret and standard claims
whose expiration lies one hour in the past still generates successfully,
and on the resulting configuration IsValid returns false and ExtractClaims
fails with exactly ErrTokenInvalid. -/
theorem c6_expired_standard_claims (key : Secret) (sc : StandardClaims)
    (now : Int) (cfg : TokenConfig)
    (hnew : NewToken [SecretKey key, WithStandardClaims now sc] = .ok cfg)
    (hexp : sc.ExpiresAt = now - 3600) :
    GenerateToken cfg now
      = .ok (freshToken cfg, { cfg with token := some (freshToken cfg) })
    ∧ IsValid { cfg with token := some (freshToken cfg) } now = some false
    ∧ ExtractClaims { cfg with token := some (freshToken cfg) } now
        = .error .ErrTokenInvalid := by
  obtain ⟨hkey, hne, hcfg⟩ := NewToken_secret_std_inv key now sc cfg hnew
  have h1 : cfg.token = none := by rw [hcfg]
  have h2 : cfg.standardClaims.ExpiresAt ≠ 0 := by
    rw [hcfg]
    exact hne
  have h3 : cfg.customClaims = [] := by rw [hcfg]
  have h4 : cfg.standardClaims.ExpiresAt < now := by
    rw [hcfg]
    show sc.ExpiresAt < now
    omega
  exact generate_expired_invalid cfg now h1 h2 h3 h4

/-- Standard claims of the C6 witness: expiration one hour before the
check time 0. -/
def c6Claims : StandardClaims := { ExpiresAt := -3600 }

/-- The C6 witness configuration as NewToken builds it at time 0. -/
def c6Config : TokenConfig :=
  { secretKey := some [1], signingMethod := .HS256, standardClaims := c6Claims,
    customClaims := [], token := none, expiration := -3600 }

/-- Witness for claim C6 at concrete inputs. -/
theorem c6_witness :
    NewToken [SecretKey [1], WithStandardClaims 0 c6Claims] = .ok c6Config
    ∧ (GenerateToken c6Config 0
        = .ok (freshToken c6Config, { c6Config with token := some (freshToken c6Config) })
      ∧ IsValid { c6Config with token := some (freshToken c6Config) } 0 = some false
      ∧ ExtractClaims { c6Config with token := some (freshToken c6Config) } 0
          = .error .ErrTokenInvalid) := by
  exact ⟨rfl, c6_expired_standard_claims [1] c6Claims 0 c6Config rfl (by decide)⟩

/-- The stored access token of the C9 counterexample: a numeric exp claim
of 0, which is strictly before the check time 100 yet is treated as absent
by the jwt v3.2.2 expiry validation. -/
def c9AccessToken : SignedToken := signToken .HS256 [1] [("exp", GoVal.vInt 0)]

/-- The access configuration of the C9 counterexample. -/
def c9AccessConfig : TokenConfig :=
  { secretKey := some [1], signingMethod := .HS256, standardClaims := {},
    customClaims := [], token := some c9AccessToken, expiration := 50 }

/-- The stored refresh token used by claim C9: valid until 1000. -/
def c9RefreshToken : SignedToken := signToken .HS256 [2] [("exp", GoVal.vInt 1000)]

/-- The refresh configuration used by claim C9, valid at time 100. -/
def c9RefreshConfig : TokenConfig :=
  { secretKey := some [2], signingMethod := .HS256, standardClaims := {},
    customClaims := [], token := some c9RefreshToken, expiration := 900 }

/-- The access token regenerated in the C9 counterexample: exp rotated to
100 + 50. -/
def c9Regenerated : SignedToken := signToken .HS256 [1] [("exp", GoVal.vInt 150)]

/-- Counterexample to claim C9 as stated: the stored access token carries a
numeric exp claim (value 0) strictly before the current time 100, the
refresh configuration is currently valid, and yet RefreshToken succeeds
rather than failing with ErrTokenInvalid, because verifyExp of jwt v3.2.2
treats a zero exp as absent. -/
theorem c9_counterexample :
    lookupClaim c9AccessToken.payload "exp" = some (GoVal.vInt 0)
    ∧ ((0 : Int) < 100)
    ∧ IsValid c9RefreshConfig 100 = some true
    ∧ RefreshToken c9AccessConfig (some c9RefreshConfig) 100
        = some (.ok (c9Regenerated,
            { c9AccessConfig with token := some c9Regenerated })) := by
  exact ⟨rfl, by decide, rfl, rfl⟩

/-- Claim C9, amended: for an access configuration whose stored token
carries a numeric non-zero exp claim strictly before the current time,
RefreshToken fails with ErrTokenInvalid even when the refresh
configuration is currently valid, because regeneration re-parses the
stored access token and parsing rejects it as expired (a zero exp claim is
exempt: the parser treats it as absent). -/
theorem c9_refresh_expired_access (t rc : TokenConfig) (tok : SignedToken)
    (e now : Int) (htok : t.token = some tok)
    (hexp : lookupClaim (normClaims tok.payload) "exp" = some (GoVal.vNum e))
    (h0 : e ≠ 0) (hlt : e < now)
    (hrc : IsValid rc now = some true) :
    RefreshToken t (some rc) now = some (.error .ErrTokenInvalid) := by
  have hfail : ParseToken t now = .error .ErrTokenInvalid :=
    ParseToken_error_of_claims_invalid t tok now htok
      (mapClaimsValid_eq_false_of_exp _ _
        (mapVerifyExpiresAt_eq_false _ now e hexp h0 (by omega)))
  have hgen : GenerateToken t now = .error .ErrTokenInvalid := by
    unfold GenerateToken regenerateToken
    rw [htok, hfail]
  unfold RefreshToken
  rw [htok]
  simp [hrc, hgen]

/-- The stored access token of the C9 witness: numeric non-zero exp 10,
strictly before the check time 100. -/
def c9wAccessToken : SignedToken := signToken .HS256 [1] [("exp", GoVal.vInt 10)]

/-- The access configuration of the C9 witness. -/
def c9wAccessConfig : TokenConfig :=
  { secretKey := some [1], signingMethod := .HS256, standardClaims := {},
    customClaims := [], token := some c9wAccessToken, expiration := 50 }

/-- Witness for the amended claim C9 at concrete inputs. -/
theorem c9_witness :
    RefreshToken c9wAccessConfig (some c9RefreshConfig) 100
      = some (.error .ErrTokenInvalid) := by
  exact c9_refresh_expired_access c9wAccessConfig c9RefreshConfig
    c9wAccessToken 10 100 rfl rfl (by decide) (by decide) rfl

/-- Claim C10: when refresh-token generation fails after access-token
generation succeeded, GenerateTokenPair returns no tokens and the error,
yet the access configuration has been mutated: its stored token is the
newly signed access token, so it has transitioned to the issued state. -/
theorem c10_generateTokenPair_not_atomic (a b : TokenConfig) (now : Int)
    (ta : SignedToken) (a2 : TokenConfig) (e : GauthErr)
    (ha : GenerateToken a now = .ok (ta, a2))
    (hb : GenerateToken b now = .error e) :
    GenerateTokenPair (some a) (some b) now
      = ⟨none, none, some e, some a2, some b⟩
    ∧ a2.token = some ta := by
  refine ⟨?_, GenerateToken_ok_token a now ta a2 ha⟩
  simp [GenerateTokenPair, ha, hb]

/-- The fresh access configuration of the C10 witness. -/
def c10AccessConfig : TokenConfig :=
  { secretKey := some [1], signingMethod := .HS256, standardClaims := {},
    customClaims := [("role", GoVal.vStr "admin")], token := none,
    expiration := 0 }

/-- The access token the C10 witness signs. -/
def c10AccessToken : SignedToken :=
  signToken .HS256 [1] [("role", GoVal.vStr "admin")]

/-- The mutated access configuration after the C10 witness pair call. -/
def c10AccessIssued : TokenConfig :=
  { c10AccessConfig with token := some c10AccessToken }

/-- The stored, already-expired refresh token of the C10 witness, which
makes refresh-side generation fail. -/
def c10RefreshStored : SignedToken := signToken .HS256 [2] [("exp", GoVal.vInt 10)]

/-- The refresh configuration of the C10 witness. -/
def c10RefreshConfig : TokenConfig :=
  { secretKey := some [2], signingMethod := .HS256, standardClaims := {},
    customClaims := [], token := some c10RefreshStored, expiration := 5 }

/-- Witness for claim C10 at concrete inputs. -/
theorem c10_witness :
    GenerateTokenPair (some c10AccessConfig) (some c10RefreshConfig) 100
      = ⟨none, none, some .ErrTokenInvalid, some c10AccessIssued,
         some c10RefreshConfig⟩
    ∧ c10AccessIssued.token = some c10AccessToken := by
  exact c10_generateTokenPair_not_atomic c10AccessConfig c10RefreshConfig 100
    c10AccessToken c10AccessIssued .ErrTokenInvalid rfl rfl

end Hydrate

namespace Gauth

/-- The gauth.go variant does enforce the algorithm check that claim C1
attributes to ParseToken: verifyToken rejects every token whose header
method differs from the expected signing method. -/
theorem verifyToken_rejects_mismatched_alg (tok : Hydrate.SignedToken)
    (method : Hydrate.Alg) (key : Hydrate.Secret) (now : Int)
    (h : tok.alg ≠ method) :
    verifyToken tok method key now = none := by
  unfold verifyToken Hydrate.jwtParse
  simp [h]

end Gauth
